import Mathlib

/-
Verification of the selection-synchronization core of the `rn-date-picker-dialog`
component (src/DatePickerDialog.tsx).  The component keeps a selected calendar
date (year, month, day) consistent with three scrollable columns whose legal
value lists are derived from a minimum date and an effective maximum date.

The embedding below translates the relevant TypeScript functions into Lean:
JS `Date` values are modelled as calendar triples plus a milliseconds-since-
midnight component, value lists as `List Nat`, the two reactive sync effects as
pure step functions returning `Option Nat` (where `none` models the JS
`undefined` that results from indexing into an empty array), and the user /
reaction dynamics as an explicit step relation.
-/

namespace DatePicker

/-- A calendar date triple, as read off a JS `Date` via `getFullYear()`,
`getMonth() + 1` and `getDate()`. -/
structure CalDate where
  year : Nat
  month : Nat
  day : Nat
deriving DecidableEq, Repr

/-- Strict order on calendar dates: lexicographic on (year, month, day).
For normalized (midnight) valid calendar dates this agrees with the
epoch-milliseconds order that JS `<` / `>` on `Date` objects uses. -/
def calLt (a b : CalDate) : Prop :=
  a.year < b.year ∨
    (a.year = b.year ∧ (a.month < b.month ∨ (a.month = b.month ∧ a.day < b.day)))

instance (a b : CalDate) : Decidable (calLt a b) := by
  unfold calLt
  infer_instance

/-- Non-strict order on calendar dates. -/
def calLe (a b : CalDate) : Prop :=
  calLt a b ∨ a = b

instance (a b : CalDate) : Decidable (calLe a b) := by
  unfold calLe
  infer_instance

/-- A JS `Date`: a calendar date plus the time-of-day part (milliseconds since
midnight).  `setHours(0, 0, 0, 0)` zeroes the time-of-day part. -/
structure JSDate where
  cal : CalDate
  ms : Nat
deriving DecidableEq, Repr

/-- Models `d.setHours(0, 0, 0, 0)` applied to a copy of `d`. -/
def setMidnight (d : JSDate) : JSDate :=
  ⟨d.cal, 0⟩

/-- JS `a < b` on `Date` values (epoch-milliseconds order, here lexicographic on
the calendar triple and then the time of day). -/
def jsLt (a b : JSDate) : Prop :=
  calLt a.cal b.cal ∨ (a.cal = b.cal ∧ a.ms < b.ms)

instance (a b : JSDate) : Decidable (jsLt a b) := by
  unfold jsLt
  infer_instance

/-- JS `a <= b` on `Date` values, i.e. not `b < a`. -/
def jsLe (a b : JSDate) : Prop :=
  ¬ jsLt b a

instance (a b : JSDate) : Decidable (jsLe a b) := by
  unfold jsLe
  infer_instance

/-- Models `new Date(year, month, 0).getDate()` for month indices `1..12`
(day 0 of the following month, i.e. the number of days in month `month` of
`year`): the true Gregorian month length, with February depending on the
leap-year rule that JS `Date` implements. -/
def isLeapYear (y : Nat) : Prop :=
  (y % 4 = 0 ∧ y % 100 ≠ 0) ∨ y % 400 = 0

instance (y : Nat) : Decidable (isLeapYear y) := by
  unfold isLeapYear
  infer_instance

/-- Number of days of month `m` (1-based) in year `y`, as computed by
`new Date(year, month, 0).getDate()` in `buildDayList`. -/
def daysInMonth (y m : Nat) : Nat :=
  if m = 2 then (if isLeapYear y then 29 else 28)
  else if m = 4 ∨ m = 6 ∨ m = 9 ∨ m = 11 then 30
  else 31

/-- `buildYearList` (DatePickerDialog.tsx lines 99-103): contiguous years from
`minDate.getFullYear()` to `effectiveMaxDate.getFullYear()`; the JS
`Array.from({length: end - start + 1}, ...)` clamps a negative length to 0,
which truncated `Nat` subtraction reproduces. -/
def buildYearList (minD effMax : CalDate) : List Nat :=
  List.range' minD.year (effMax.year + 1 - minD.year)

/-- `buildMonthList` (DatePickerDialog.tsx lines 106-118): months `minMonth..maxMonth`
where `minMonth` is `minDate`'s month in `minDate`'s year and 1 otherwise, and
`maxMonth` is `effectiveMaxDate`'s month in its year, 12 below it, with an
empty list returned for years above `effectiveMaxDate`'s year. -/
def buildMonthList (minD effMax : CalDate) (year : Nat) : List Nat :=
  let minMonth := if year = minD.year then minD.month else 1
  if year = effMax.year then List.range' minMonth (effMax.month + 1 - minMonth)
  else if effMax.year < year then []
  else List.range' minMonth (12 + 1 - minMonth)

/-- `buildDayList` (DatePickerDialog.tsx lines 121-139): days `minDay..maxDay` where
`minDay` is `minDate`'s day in `minDate`'s year-month and 1 otherwise, and
`maxDay` is `effectiveMaxDate`'s day in its year-month and the calendar month
length otherwise, with an empty list for any year-month past
`effectiveMaxDate`'s. -/
def buildDayList (minD effMax : CalDate) (year month : Nat) : List Nat :=
  let totalDays := daysInMonth year month
  let minDay := if year = minD.year ∧ month = minD.month then minD.day else 1
  if year = effMax.year ∧ month = effMax.month then
    List.range' minDay (effMax.day + 1 - minDay)
  else if effMax.year < year ∨ (year = effMax.year ∧ effMax.month < month) then []
  else List.range' minDay (totalDays + 1 - minDay)

/-- `effectiveMaxDate` (DatePickerDialog.tsx lines 53-61): the caller's `maxDate`
normalized to midnight, replaced by `today` when it lies after `today`;
`today` itself when no `maxDate` was supplied. -/
def effectiveMaxDate (maxDate : Option JSDate) (today : JSDate) : JSDate :=
  match maxDate with
  | some m =>
      let maxDateCopy := setMidnight m
      if jsLt today maxDateCopy then today else maxDateCopy
  | none => today

/-- JS `a > b` where `b` is `list[i]` and may be `undefined` (modelled by
`none`): any comparison against `undefined` is false. -/
def jsGtOpt (a : Nat) (b : Option Nat) : Prop :=
  match b with
  | some v => v < a
  | none => False

instance (a : Nat) (b : Option Nat) : Decidable (jsGtOpt a b) := by
  unfold jsGtOpt
  match b with
  | some v => infer_instance
  | none => infer_instance

/-- JS `a < b` where `b` may be `undefined`: false against `undefined`. -/
def jsLtOpt (a : Nat) (b : Option Nat) : Prop :=
  match b with
  | some v => a < v
  | none => False

instance (a : Nat) (b : Option Nat) : Decidable (jsLtOpt a b) := by
  unfold jsLtOpt
  match b with
  | some v => infer_instance
  | none => infer_instance

/-- The month-sync reaction (DatePickerDialog.tsx lines 273-292), run in the idle
(non-initializing) visible state whenever `selectedYear` changes: recompute the
month list for the year and, when the current month is not in it, take
`availableMonths[0]`.  The result is the new `selectedMonth`; `none` models the
`undefined` read off an empty list (the code performs no emptiness check
here). -/
def monthSyncStep (minD effMax : CalDate) (year month : Nat) : Option Nat :=
  let availableMonths := buildMonthList minD effMax year
  if month ∈ availableMonths then some month
  else availableMonths.head?

/-- The day-sync reaction (DatePickerDialog.tsx lines 295-322), run in the idle
visible state whenever `selectedYear` or `selectedMonth` changes: recompute the
day list and clamp an out-of-range day to the nearest end
(`availableDays[availableDays.length - 1]` when above it, `availableDays[0]`
when below it, `availableDays[0]` in the defensive final branch).  The current
day is an `Option Nat` because a previous reaction can have stored `undefined`;
JS comparisons against `undefined` are false, and `availableDays[0]` of the
empty list is `undefined` (`none`). -/
def daySyncStep (minD effMax : CalDate) (year month : Nat) (day : Option Nat) :
    Option Nat :=
  let availableDays := buildDayList minD effMax year month
  match day with
  | some d =>
      if d ∈ availableDays then some d
      else if jsGtOpt d availableDays.getLast? then availableDays.getLast?
      else if jsLtOpt d availableDays.head? then availableDays.head?
      else availableDays.head?
  | none => availableDays.head?

/-- The day-clamping part of the initialization effect (DatePickerDialog.tsx lines
170-189): keep a day inside the available list, otherwise move it to the
nearest end of the list, with an explicit emptiness check falling back to 1. -/
def clampDayInit (availableDays : List Nat) (day : Nat) : Nat :=
  if day ∈ availableDays then day
  else
    match availableDays.getLast?, availableDays.head? with
    | some last, some first =>
        if last < day then last
        else if day < first then first
        else first
    | _, _ => 1

/-- The component-wise clamping of the initialization effect (DatePickerDialog.tsx
lines 164-189), applied to the year/month/day read off `finalDate`: clamp the
year into the year range, keep the month when it is in the year's month list
(else its first element, else 1), then clamp the day via `clampDayInit`. -/
def seedPipeline (minD effMax : CalDate) (c : CalDate) : CalDate :=
  let clampedYear := max minD.year (min c.year effMax.year)
  let availableMonths := buildMonthList minD effMax clampedYear
  let clampedMonth :=
    if c.month ∈ availableMonths then c.month else availableMonths.headD 1
  let availableDays := buildDayList minD effMax clampedYear clampedMonth
  ⟨clampedYear, clampedMonth, clampDayInit availableDays c.day⟩

/-- The initialization effect's date seeding (DatePickerDialog.tsx lines 147-193):
take `initialDate` (or `today`), clamp it below `effectiveMaxDate` and above
`minDate` by whole-`Date` comparison, then run the component-wise clamping
pipeline on its calendar components.  Returns the seeded
(selectedYear, selectedMonth, selectedDay) triple. -/
def initSelection (initialDate : Option JSDate) (minD effMax today : JSDate) :
    CalDate :=
  let dateToUse := initialDate.getD today
  let clampedDate := if jsLt effMax dateToUse then effMax else dateToUse
  let finalDate := if jsLt clampedDate minD then minD else clampedDate
  seedPipeline minD.cal effMax.cal finalDate.cal

/-- `ITEM_HEIGHT` (DatePickerDialog.tsx line 25). -/
def ITEM_HEIGHT : Int := 46

/-- `VISIBLE_ITEM_COUNT` (DatePickerDialog.tsx line 26). -/
def VISIBLE_ITEM_COUNT : Int := 5

/-- `PADDING` (DatePickerDialog.tsx line 28). -/
def PADDING : Int := ITEM_HEIGHT * 2

/-- The center row index `(VISIBLE_ITEM_COUNT - 1) / 2` used by both
`scrollToIndex` and `handleScroll`. -/
def centerRowIndex : Int := (VISIBLE_ITEM_COUNT - 1) / 2

/-- The physical offset `scrollToIndex` scrolls to for a given (already
clamped) index (DatePickerDialog.tsx lines 398-399 and 417):
`Math.max(0, (index - centerIndex) * ITEM_HEIGHT + PADDING)`. -/
def scrollOffsetForIndex (i : Int) : Int :=
  max 0 ((i - centerRowIndex) * ITEM_HEIGHT + PADDING)

/-- `Math.round(num / den)` for a positive integer denominator:
the floor of `num / den + 1 / 2`. -/
def jsRoundDiv (num den : Int) : Int :=
  (2 * num + den).fdiv (2 * den)

/-- The index `handleScroll` derives from a physical scroll offset
(DatePickerDialog.tsx lines 436-451): recentre by
`offsetY + ITEM_HEIGHT * (VISIBLE_ITEM_COUNT - 1) / 2 - PADDING`, round to the
nearest item, and clamp into the bounds of the value list. -/
def scrollIndexFromOffset (len : Nat) (offsetY : Int) : Int :=
  let centerOffset := offsetY + ITEM_HEIGHT * (VISIBLE_ITEM_COUNT - 1) / 2 - PADDING
  let newIndex := jsRoundDiv centerOffset ITEM_HEIGHT
  max 0 (min newIndex ((len : Int) - 1))

/-- An event emitted through the dialog's callback surface. -/
inductive CloseEvent where
  | confirm : JSDate → CloseEvent
  | cancel : CloseEvent
  | dismiss : CloseEvent
deriving DecidableEq, Repr

/-- `handleDismiss` (DatePickerDialog.tsx lines 570-572): fire `onDismiss`. -/
def handleDismiss : List CloseEvent :=
  [CloseEvent.dismiss]

/-- `handleConfirm` (DatePickerDialog.tsx lines 559-563): fire `onConfirm` with
`new Date(selectedYear, selectedMonth - 1, selectedDay)` — the calendar date
(year, month, day) at midnight, since the month argument is the 0-based index
`selectedMonth - 1` — and then run `handleDismiss`. -/
def handleConfirm (year month day : Nat) : List CloseEvent :=
  CloseEvent.confirm ⟨⟨year, month, day⟩, 0⟩ :: handleDismiss

/-- `handleCancel` (DatePickerDialog.tsx lines 565-568): fire `onCancel`, then run
`handleDismiss`. -/
def handleCancel : List CloseEvent :=
  CloseEvent.cancel :: handleDismiss

/-- The possible user-initiated ways of closing the dialog: the confirm button
(`handleConfirm`), and the cancel button, the tap on the overlay outside the
sheet, and the hardware back signal (`Modal.onRequestClose`), which all invoke
`handleCancel` (DatePickerDialog.tsx lines 712, 717, 726, 729). -/
inductive CloseCause where
  | confirmPress : CloseCause
  | cancelPress : CloseCause
  | outsideTap : CloseCause
  | hardwareBack : CloseCause
deriving DecidableEq, Repr

/-- The sequence of events one user-initiated close emits, given the selected
year/month/day at the time of the close. -/
def closeTrace (cause : CloseCause) (year month day : Nat) : List CloseEvent :=
  match cause with
  | CloseCause.confirmPress => handleConfirm year month day
  | CloseCause.cancelPress => handleCancel
  | CloseCause.outsideTap => handleCancel
  | CloseCause.hardwareBack => handleCancel

/-- Event classifiers for counting. -/
def isConfirmEvent : CloseEvent → Bool
  | CloseEvent.confirm _ => true
  | _ => false

def isCancelEvent : CloseEvent → Bool
  | CloseEvent.cancel => true
  | _ => false

def isDismissEvent : CloseEvent → Bool
  | CloseEvent.dismiss => true
  | _ => false

/-- The selection state held by the component while the dialog is visible:
`selectedYear`, `selectedMonth`, `selectedDay` (DatePickerDialog.tsx lines 64-66).
The day is an `Option Nat` because the day-sync reaction stores the raw result
of indexing into the recomputed list, which is `undefined` (`none`) when that
list is empty. -/
structure SelState where
  year : Nat
  month : Nat
  day : Option Nat
deriving DecidableEq, Repr

/-- One atomic state change of the visible, non-initializing dialog.  User
selections (`applySelectionFromIndex`, DatePickerDialog.tsx lines 490-520, reached
from `handleScroll`, `onMomentumScrollEnd` and `handleItemPress`) store an
element of the column's current value list into the corresponding selected
value.  The two sync reactions (`syncMonth`, `syncDay`) are the deferred
effects of lines 273-292 and 295-322; they run after the render that committed
a value change, so the states in between are real states of the component. -/
inductive Step (minD effMax : CalDate) : SelState → SelState → Prop where
  | selectYear (s : SelState) (y : Nat) (h : y ∈ buildYearList minD effMax) :
      Step minD effMax s ⟨y, s.month, s.day⟩
  | selectMonth (s : SelState) (m : Nat) (h : m ∈ buildMonthList minD effMax s.year) :
      Step minD effMax s ⟨s.year, m, s.day⟩
  | selectDay (s : SelState) (d : Nat) (h : d ∈ buildDayList minD effMax s.year s.month) :
      Step minD effMax s ⟨s.year, s.month, some d⟩
  | syncMonth (s : SelState) (m : Nat)
      (h : monthSyncStep minD effMax s.year s.month = some m) :
      Step minD effMax s ⟨s.year, m, s.day⟩
  | syncDay (s : SelState) :
      Step minD effMax s ⟨s.year, s.month, daySyncStep minD effMax s.year s.month s.day⟩

/-- Reachability: finitely many steps of the visible dialog. -/
def Reach (minD effMax : CalDate) : SelState → SelState → Prop :=
  Relation.ReflTransGen (Step minD effMax)

/-- The `SelectedDate` invariant claimed by the spec: the selected triple lies
between `minDate` and `effectiveMaxDate` and its day is a valid day number for
its year-month (and, in particular, is an actual number, not `undefined`). -/
def SelInvariant (minD effMax : CalDate) (s : SelState) : Prop :=
  match s.day with
  | some d =>
      calLe minD ⟨s.year, s.month, d⟩ ∧ calLe ⟨s.year, s.month, d⟩ effMax ∧
        1 ≤ d ∧ d ≤ daysInMonth s.year s.month
  | none => False

instance (minD effMax : CalDate) (s : SelState) : Decidable (SelInvariant minD effMax s) := by
  unfold SelInvariant
  match s.day with
  | some d => infer_instance
  | none => infer_instance

/-- A calendar date that can actually be produced by a JS `Date`: month index
in range and day within the month's true length. -/
def validCal (c : CalDate) : Prop :=
  1 ≤ c.month ∧ c.month ≤ 12 ∧ 1 ≤ c.day ∧ c.day ≤ daysInMonth c.year c.month

instance (c : CalDate) : Decidable (validCal c) := by
  unfold validCal
  infer_instance

/-! Helper lemmas about the value lists. -/

theorem chain'_succ_range' (a n : Nat) :
    List.Chain' (fun x y => y = x + 1) (List.range' a n) := by
  induction n generalizing a with
  | zero => simp
  | succ n ih =>
      rw [List.range'_succ, List.chain'_cons']
      refine ⟨fun b hb => ?_, ih (a + 1)⟩
      rw [List.head?_range'] at hb
      split at hb
      · simp at hb
      · simp_all

theorem mem_buildYearList_iff (minD effMax : CalDate) (y : Nat) :
    y ∈ buildYearList minD effMax ↔ minD.year ≤ y ∧ y ≤ effMax.year := by
  unfold buildYearList
  rw [List.mem_range'_1]
  omega

theorem mem_buildMonthList_iff (minD effMax : CalDate) (y m : Nat) :
    m ∈ buildMonthList minD effMax y ↔
      (if y = minD.year then minD.month else 1) ≤ m ∧
        ((y = effMax.year ∧ m ≤ effMax.month) ∨ (y < effMax.year ∧ m ≤ 12)) := by
  unfold buildMonthList
  split_ifs with h1 h2 <;> simp [List.mem_range'_1] <;> omega

theorem mem_buildDayList_iff (minD effMax : CalDate) (y m d : Nat) :
    d ∈ buildDayList minD effMax y m ↔
      (if y = minD.year ∧ m = minD.month then minD.day else 1) ≤ d ∧
        ((y = effMax.year ∧ m = effMax.month ∧ d ≤ effMax.day) ∨
          ((y < effMax.year ∨ (y = effMax.year ∧ m < effMax.month)) ∧
            d ≤ daysInMonth y m)) := by
  unfold buildDayList
  split_ifs with h1 h2 h3 <;> simp [List.mem_range'_1] <;> omega

theorem daysInMonth_pos (y m : Nat) : 1 ≤ daysInMonth y m := by
  unfold daysInMonth
  split_ifs <;> omega

theorem calDate_eq_iff (a b : CalDate) :
    a = b ↔ a.year = b.year ∧ a.month = b.month ∧ a.day = b.day := by
  cases a
  cases b
  simp

theorem buildMonthList_shape (minD effMax : CalDate) (y : Nat) :
    ∃ n, buildMonthList minD effMax y =
      List.range' (if y = minD.year then minD.month else 1) n := by
  unfold buildMonthList
  split_ifs <;> first
    | exact ⟨_, rfl⟩
    | exact ⟨0, rfl⟩

theorem buildDayList_shape (minD effMax : CalDate) (y m : Nat) :
    ∃ n, buildDayList minD effMax y m =
      List.range' (if y = minD.year ∧ m = minD.month then minD.day else 1) n := by
  unfold buildDayList
  split_ifs <;> first
    | exact ⟨_, rfl⟩
    | exact ⟨0, rfl⟩

/-! Claim C5. -/

/-- C5: For every pair of bounds, the year list is the contiguous ascending
sequence of integers from `minDate.year` to `effectiveMaxDate.year` inclusive
(membership is exactly the closed interval and consecutive entries differ by
one), and it is empty exactly when `minDate.year > effectiveMaxDate.year`. -/
theorem spec_C5 (minD effMax : CalDate) :
    (∀ y, y ∈ buildYearList minD effMax ↔ minD.year ≤ y ∧ y ≤ effMax.year) ∧
    List.Chain' (fun a b => b = a + 1) (buildYearList minD effMax) ∧
    (buildYearList minD effMax = [] ↔ effMax.year < minD.year) := by
  refine ⟨fun y => mem_buildYearList_iff minD effMax y, chain'_succ_range' _ _, ?_⟩
  unfold buildYearList
  rw [List.range'_eq_nil]
  omega

/-! Claim C4. -/

/-- C4: For every year in the year list, the month list is the contiguous
ascending sequence from (`minDate.month` if the year is `minDate`'s, else 1)
to (`effectiveMaxDate.month` if the year is `effectiveMaxDate`'s, else 12) —
in particular the full `1..12` for every interior year — and it is empty for
every year strictly greater than `effectiveMaxDate.year`. -/
theorem spec_C4 (minD effMax : CalDate) :
    (∀ y, y ∈ buildYearList minD effMax →
      (∀ m, m ∈ buildMonthList minD effMax y ↔
        (if y = minD.year then minD.month else 1) ≤ m ∧
          m ≤ (if y = effMax.year then effMax.month else 12)) ∧
      List.Chain' (fun a b => b = a + 1) (buildMonthList minD effMax y) ∧
      (minD.year < y → y < effMax.year →
        buildMonthList minD effMax y = List.range' 1 12)) ∧
    (∀ y, effMax.year < y → buildMonthList minD effMax y = []) := by
  constructor
  · intro y hy
    rw [mem_buildYearList_iff] at hy
    refine ⟨fun m => ?_, ?_, fun hlo hhi => ?_⟩
    · rw [mem_buildMonthList_iff]
      split_ifs <;> omega
    · obtain ⟨n, hn⟩ := buildMonthList_shape minD effMax y
      rw [hn]
      exact chain'_succ_range' _ _
    · unfold buildMonthList
      split_ifs <;> first | omega | norm_num
  · intro y hy
    unfold buildMonthList
    split_ifs <;> first | rfl | omega

/-- Witness for C4 at concrete inputs: an interior year has the full month
range and a year past the maximum has the empty list. -/
theorem spec_C4_witness :
    7 ∈ buildMonthList ⟨1945, 1, 1⟩ ⟨2024, 6, 15⟩ 2000 ∧
    buildMonthList ⟨1945, 1, 1⟩ ⟨2024, 6, 15⟩ 2000 = List.range' 1 12 ∧
    buildMonthList ⟨1945, 1, 1⟩ ⟨2024, 6, 15⟩ 2025 = [] :=
  ⟨(((spec_C4 ⟨1945, 1, 1⟩ ⟨2024, 6, 15⟩).1 2000 (by decide)).1 7).mpr (by decide),
   ((spec_C4 ⟨1945, 1, 1⟩ ⟨2024, 6, 15⟩).1 2000 (by decide)).2.2 (by decide) (by decide),
   (spec_C4 ⟨1945, 1, 1⟩ ⟨2024, 6, 15⟩).2 2025 (by decide)⟩

/-! Claim C3. -/

/-- C3: For every actual month between `minDate` and `effectiveMaxDate`
(ordered by year, then month), the day list ranges from `minDate.day` at the
minimum boundary month (else 1) to `effectiveMaxDate.day` at the maximum
boundary month (else the true calendar day count `daysInMonth`, which gives
February 29 days exactly in leap years); it is contiguous ascending, is the
full `1..daysInMonth` with length `daysInMonth` away from both boundaries,
starts at `minDate.day` at the minimum boundary, ends at
`effectiveMaxDate.day` at the maximum boundary, and is empty for every
year-month after `effectiveMaxDate`'s. -/
theorem spec_C3 (minD effMax : CalDate)
    (hvmin : validCal minD) (hvmax : validCal effMax) (hle : calLe minD effMax) :
    (∀ y, daysInMonth y 2 = if isLeapYear y then 29 else 28) ∧
    (∀ y m, (minD.year < y ∨ (minD.year = y ∧ minD.month ≤ m)) →
      (y < effMax.year ∨ (y = effMax.year ∧ m ≤ effMax.month)) →
      1 ≤ m → m ≤ 12 →
      (∀ d, d ∈ buildDayList minD effMax y m ↔
        (if y = minD.year ∧ m = minD.month then minD.day else 1) ≤ d ∧
          d ≤ (if y = effMax.year ∧ m = effMax.month then effMax.day
               else daysInMonth y m)) ∧
      List.Chain' (fun a b => b = a + 1) (buildDayList minD effMax y m) ∧
      (¬(y = minD.year ∧ m = minD.month) → ¬(y = effMax.year ∧ m = effMax.month) →
        buildDayList minD effMax y m = List.range' 1 (daysInMonth y m) ∧
        (buildDayList minD effMax y m).length = daysInMonth y m) ∧
      ((y = minD.year ∧ m = minD.month) →
        (buildDayList minD effMax y m).head? = some minD.day) ∧
      ((y = effMax.year ∧ m = effMax.month) →
        (buildDayList minD effMax y m).getLast? = some effMax.day)) ∧
    (∀ y m, (effMax.year < y ∨ (y = effMax.year ∧ effMax.month < m)) →
      buildDayList minD effMax y m = []) := by
  unfold validCal at hvmin hvmax
  unfold calLe calLt at hle
  rw [calDate_eq_iff] at hle
  refine ⟨fun y => by unfold daysInMonth; norm_num, fun y m hp1 hp2 hm1 hm2 => ?_,
    fun y m hafter => ?_⟩
  · have hd1 : y = minD.year → m = minD.month →
        daysInMonth y m = daysInMonth minD.year minD.month := by
      intro a b
      rw [a, b]
    have hd2 : y = effMax.year → m = effMax.month →
        daysInMonth y m = daysInMonth effMax.year effMax.month := by
      intro a b
      rw [a, b]
    have hdim := daysInMonth_pos y m
    refine ⟨fun d => ?_, ?_, fun hnotmin hnotmax => ?_, fun hminB => ?_, fun hmaxB => ?_⟩
    · rw [mem_buildDayList_iff]
      split_ifs <;> omega
    · obtain ⟨n, hn⟩ := buildDayList_shape minD effMax y m
      rw [hn]
      exact chain'_succ_range' _ _
    · have e : daysInMonth y m + 1 - 1 = daysInMonth y m := by omega
      simp only [buildDayList]
      rw [if_neg hnotmin, if_neg hnotmax, if_neg (by omega), e]
      exact ⟨rfl, by simp⟩
    · simp only [buildDayList]
      by_cases hmax : y = effMax.year ∧ m = effMax.month
      · rw [if_pos hmax, if_pos hminB, List.head?_range', if_neg (by omega)]
      · rw [if_neg hmax, if_neg (by omega), if_pos hminB, List.head?_range',
          if_neg (by omega)]
    · simp only [buildDayList]
      rw [if_pos hmaxB]
      by_cases hmin : y = minD.year ∧ m = minD.month
      · rw [if_pos hmin, List.getLast?_range', if_neg (by omega)]
        congr 1
        omega
      · rw [if_neg hmin, List.getLast?_range', if_neg (by omega)]
        congr 1
        omega
  · simp only [buildDayList]
    split_ifs <;> first | rfl | (exfalso; omega)

/-- Witness for C3 at concrete inputs: February 2024 (a leap year, interior
month) has 29 days, and a month after the effective maximum has the empty
list. -/
theorem spec_C3_witness :
    (buildDayList ⟨1945, 1, 1⟩ ⟨2024, 6, 15⟩ 2024 2).length = daysInMonth 2024 2 ∧
    daysInMonth 2024 2 = 29 ∧
    buildDayList ⟨1945, 1, 1⟩ ⟨2024, 6, 15⟩ 2024 7 = [] :=
  ⟨(((spec_C3 ⟨1945, 1, 1⟩ ⟨2024, 6, 15⟩ (by decide) (by decide) (by decide)).2.1
      2024 2 (by decide) (by decide) (by decide) (by decide)).2.2.1
      (by decide) (by decide)).2,
   by decide,
   (spec_C3 ⟨1945, 1, 1⟩ ⟨2024, 6, 15⟩ (by decide) (by decide) (by decide)).2.2
      2024 7 (by decide)⟩

/-! Order helper lemmas. -/

theorem calLe_refl (a : CalDate) : calLe a a :=
  Or.inr rfl

theorem not_calLt_of_calLe {a b : CalDate} (h : calLe a b) : ¬ calLt b a := by
  unfold calLe calLt at *
  rw [calDate_eq_iff] at h
  omega

theorem calLe_of_not_calLt {a b : CalDate} (h : ¬ calLt b a) : calLe a b := by
  unfold calLe calLt at *
  rw [calDate_eq_iff]
  omega

/-! Claim C6. -/

/-- C6: For every caller-supplied `maxDate`, `effectiveMaxDate` equals
`maxDate` normalized to midnight when `maxDate ≤ today`, and equals `today`
when `maxDate` is later than `today`; when `maxDate` is omitted it equals
`today`; hence `effectiveMaxDate ≤ today` in every case.  (`today` is built
at midnight, DatePickerDialog.tsx lines 46-50.) -/
theorem spec_C6 (today : JSDate) (h0 : today.ms = 0) :
    effectiveMaxDate none today = today ∧
    (∀ m, jsLe m today → effectiveMaxDate (some m) today = setMidnight m) ∧
    (∀ m, jsLt today m → effectiveMaxDate (some m) today = today) ∧
    (∀ mo, jsLe (effectiveMaxDate mo today) today) := by
  have hself : ∀ a : JSDate, ¬ jsLt a a := by
    intro a h
    rcases h with h | ⟨_, h⟩
    · exact not_calLt_of_calLe (calLe_refl a.cal) h
    · omega
  refine ⟨rfl, fun m hm => ?_, fun m hm => ?_, fun mo => ?_⟩
  · simp only [effectiveMaxDate]
    rw [if_neg]
    intro hlt
    rcases hlt with h | ⟨hc, hms⟩
    · exact hm (Or.inl h)
    · simp only [setMidnight] at hms
      omega
  · simp only [effectiveMaxDate]
    by_cases hc : jsLt today (setMidnight m)
    · rw [if_pos hc]
    · rw [if_neg hc]
      rcases hm with h | ⟨hc2, hms⟩
      · exact absurd (Or.inl h) hc
      · obtain ⟨tc, tms⟩ := today
        simp only at h0 hc2
        simp only [setMidnight, hc2]
        rw [h0]
  · match mo with
    | none => exact hself today
    | some m =>
        simp only [effectiveMaxDate]
        by_cases hc : jsLt today (setMidnight m)
        · rw [if_pos hc]
          exact hself today
        · rw [if_neg hc]
          exact hc

/-- Witness for C6: a future `maxDate` is clamped to `today` and an omitted
`maxDate` defaults to `today`, at the scenario values. -/
theorem spec_C6_witness :
    effectiveMaxDate (some ⟨⟨2025, 12, 31⟩, 0⟩) ⟨⟨2024, 6, 15⟩, 0⟩ =
      ⟨⟨2024, 6, 15⟩, 0⟩ ∧
    effectiveMaxDate none ⟨⟨2024, 6, 15⟩, 0⟩ = ⟨⟨2024, 6, 15⟩, 0⟩ :=
  ⟨(spec_C6 ⟨⟨2024, 6, 15⟩, 0⟩ rfl).2.2.1 ⟨⟨2025, 12, 31⟩, 0⟩ (by decide),
   (spec_C6 ⟨⟨2024, 6, 15⟩, 0⟩ rfl).1⟩

/-! Claim C8. -/

/-- C8: for every value list length and every legal index, the physical
offset computed by `scrollToIndex` is mapped back to the same index by the
scroll-event interpretation of `handleScroll`: the round trip between logical
index and physical offset is the identity. -/
theorem spec_C8 (len i : Nat) (h : i < len) :
    scrollIndexFromOffset len (scrollOffsetForIndex (i : Int)) = (i : Int) := by
  have hoff : scrollOffsetForIndex (i : Int) = 46 * (i : Int) := by
    unfold scrollOffsetForIndex centerRowIndex PADDING VISIBLE_ITEM_COUNT ITEM_HEIGHT
    have e : ((i : Int) - (5 - 1) / 2) * 46 + 46 * 2 = 46 * (i : Int) := by
      norm_num
      ring
    rw [e, max_eq_right (by positivity)]
  rw [hoff]
  simp only [scrollIndexFromOffset, jsRoundDiv, PADDING, VISIBLE_ITEM_COUNT, ITEM_HEIGHT]
  rw [Int.fdiv_eq_ediv _ (by norm_num)]
  have hi : (0 : Int) ≤ (i : Int) := Int.ofNat_nonneg i
  have hl : (i : Int) < (len : Int) := by exact_mod_cast h
  omega

/-- Witness for C8 at a concrete list length and index. -/
theorem spec_C8_witness :
    scrollIndexFromOffset 5 (scrollOffsetForIndex (3 : Int)) = (3 : Int) :=
  spec_C8 5 3 (by decide)

/-! Claim C9. -/

/-- C9: pressing confirm emits exactly `onConfirm` with the selected calendar
date at midnight followed by `onDismiss` (no `onCancel`); and for every
user-initiated close, exactly one of `onConfirm` / `onCancel` fires, while
`onDismiss` fires exactly once, after the confirm/cancel handling (it is the
final event of the trace). -/
theorem spec_C9 (year month day : Nat) :
    closeTrace CloseCause.confirmPress year month day =
      [CloseEvent.confirm ⟨⟨year, month, day⟩, 0⟩, CloseEvent.dismiss] ∧
    ∀ cause,
      (closeTrace cause year month day).countP isConfirmEvent +
        (closeTrace cause year month day).countP isCancelEvent = 1 ∧
      (closeTrace cause year month day).countP isDismissEvent = 1 ∧
      (closeTrace cause year month day).getLast? = some CloseEvent.dismiss := by
  refine ⟨rfl, fun cause => ?_⟩
  cases cause <;>
    simp [closeTrace, handleConfirm, handleCancel, handleDismiss,
      isConfirmEvent, isCancelEvent, isDismissEvent, List.countP_cons, List.countP_nil]

/-! Claim C1. -/

/-- C1: In the idle visible state, for every year the user can have selected
(a member of the year list), the month-sync reaction keeps a month that is in
the recomputed month list and otherwise replaces it with that list's first
element (the list being non-empty), never any other element; and the day-sync
reaction keeps a day that is in the recomputed day list, while a day outside a
non-empty recomputed list is necessarily beyond one of its two ends and is
moved to the nearest endpoint: the list's last value when the old day exceeds
it, the list's first value when the old day is below it. -/
theorem spec_C1 (minD effMax : CalDate)
    (hvmin : validCal minD) (hvmax : validCal effMax) (hle : calLe minD effMax) :
    (∀ y m, y ∈ buildYearList minD effMax →
      (m ∈ buildMonthList minD effMax y → monthSyncStep minD effMax y m = some m) ∧
      (m ∉ buildMonthList minD effMax y →
        buildMonthList minD effMax y ≠ [] ∧
        monthSyncStep minD effMax y m = (buildMonthList minD effMax y).head?)) ∧
    (∀ y m d first last,
      (buildDayList minD effMax y m).head? = some first →
      (buildDayList minD effMax y m).getLast? = some last →
      (d ∈ buildDayList minD effMax y m →
        daySyncStep minD effMax y m (some d) = some d) ∧
      (d ∉ buildDayList minD effMax y m → last < d ∨ d < first) ∧
      (last < d → daySyncStep minD effMax y m (some d) = some last) ∧
      (d < first → daySyncStep minD effMax y m (some d) = some first)) := by
  constructor
  · intro y m hy
    rw [mem_buildYearList_iff] at hy
    refine ⟨fun hm => ?_, fun hm => ⟨List.ne_nil_of_mem (a := ?_) ?_, ?_⟩⟩
    · simp only [monthSyncStep]
      rw [if_pos hm]
    · exact if y = minD.year then minD.month else 1
    · rw [mem_buildMonthList_iff]
      unfold validCal at hvmin hvmax
      unfold calLe calLt at hle
      rw [calDate_eq_iff] at hle
      split_ifs <;> omega
    · simp only [monthSyncStep]
      rw [if_neg hm]
  · intro y m d first last hfirst hlast
    obtain ⟨n, hn⟩ := buildDayList_shape minD effMax y m
    rw [hn, List.head?_range'] at hfirst
    rw [hn, List.getLast?_range'] at hlast
    by_cases hne : n = 0
    · rw [if_pos hne] at hfirst
      exact absurd hfirst (by simp)
    rw [if_neg hne] at hfirst hlast
    have hf : (if y = minD.year ∧ m = minD.month then minD.day else 1) = first :=
      Option.some.inj hfirst
    have hl : (if y = minD.year ∧ m = minD.month then minD.day else 1) + n - 1 = last :=
      Option.some.inj hlast
    have hmem : ∀ x, x ∈ buildDayList minD effMax y m ↔ first ≤ x ∧ x ≤ last := by
      intro x
      rw [hn, List.mem_range'_1]
      omega
    refine ⟨fun hd => ?_, fun hd => ?_, fun hgt => ?_, fun hlt => ?_⟩
    · simp only [daySyncStep]
      rw [if_pos hd]
    · rw [hmem] at hd
      omega
    · have hd : d ∉ buildDayList minD effMax y m := by
        rw [hmem]
        omega
      have hgt' : jsGtOpt d
          (some ((if y = minD.year ∧ m = minD.month then minD.day else 1) + n - 1)) := by
        simp only [jsGtOpt]
        omega
      simp only [daySyncStep]
      rw [if_neg hd, hn, List.getLast?_range', if_neg hne, if_pos hgt']
      rw [hl]
    · have hd : d ∉ buildDayList minD effMax y m := by
        rw [hmem]
        omega
      have hgt' : ¬ jsGtOpt d
          (some ((if y = minD.year ∧ m = minD.month then minD.day else 1) + n - 1)) := by
        simp only [jsGtOpt]
        omega
      have hlt' : jsLtOpt d
          (some (if y = minD.year ∧ m = minD.month then minD.day else 1)) := by
        simp only [jsLtOpt]
        omega
      simp only [daySyncStep]
      rw [if_neg hd, hn, List.getLast?_range', List.head?_range', if_neg hne, if_neg hne,
        if_neg hgt', if_pos hlt']
      rw [hf]

/-- Witness for C1 at concrete inputs: selecting year 2024 with a stale month
12 moves the month to the list's first element, and a day 30 above the
29-element February 2024 list is clamped to the list's last value 29. -/
theorem spec_C1_witness :
    monthSyncStep ⟨1945, 1, 1⟩ ⟨2024, 6, 15⟩ 2024 12 =
      (buildMonthList ⟨1945, 1, 1⟩ ⟨2024, 6, 15⟩ 2024).head? ∧
    daySyncStep ⟨1945, 1, 1⟩ ⟨2024, 6, 15⟩ 2024 2 (some 30) = some 29 :=
  ⟨(((spec_C1 ⟨1945, 1, 1⟩ ⟨2024, 6, 15⟩ (by decide) (by decide) (by decide)).1 2024 12
      (by decide)).2 (by decide)).2,
   ((spec_C1 ⟨1945, 1, 1⟩ ⟨2024, 6, 15⟩ (by decide) (by decide) (by decide)).2 2024 2 30 1 29
      (by decide) (by decide)).2.2.1 (by decide)⟩

/-! Claim C7. -/

/-- The component-wise clamping pipeline of the initialization effect leaves a
valid calendar date that already lies between the bounds unchanged. -/
theorem seedPipeline_id (minD effMax c : CalDate)
    (hvmin : validCal minD) (hvmax : validCal effMax) (hvc : validCal c)
    (hle : calLe minD effMax) (h1 : calLe minD c) (h2 : calLe c effMax) :
    seedPipeline minD effMax c = c := by
  unfold validCal at hvmin hvmax hvc
  unfold calLe calLt at hle h1 h2
  rw [calDate_eq_iff] at hle h1 h2
  have hyear : max minD.year (min c.year effMax.year) = c.year := by
    omega
  have hmonth : c.month ∈ buildMonthList minD effMax c.year := by
    rw [mem_buildMonthList_iff]
    split_ifs <;> omega
  have hday : c.day ∈ buildDayList minD effMax c.year c.month := by
    have hd2 : c.year = effMax.year → c.month = effMax.month →
        daysInMonth c.year c.month = daysInMonth effMax.year effMax.month := by
      intro a b
      rw [a, b]
    rw [mem_buildDayList_iff]
    split_ifs <;> omega
  simp only [seedPipeline]
  rw [hyear, if_pos hmonth]
  simp only [clampDayInit]
  rw [if_pos hday]

/-- C7: when the dialog becomes visible, the seeded selection equals
`initialDate` clamped into `[minDate, effectiveMaxDate]`: an `initialDate`
later than `effectiveMaxDate` seeds exactly `effectiveMaxDate`'s calendar
date, one earlier than `minDate` seeds exactly `minDate`'s calendar date, and
a valid `initialDate` inside the range is kept unchanged (in particular its
day is in the legal day list, so the nearest-endpoint day clamp never moves
it). -/
theorem spec_C7 (minD effMax today : JSDate)
    (hm0 : minD.ms = 0) (he0 : effMax.ms = 0)
    (hvmin : validCal minD.cal) (hvmax : validCal effMax.cal)
    (hle : calLe minD.cal effMax.cal) :
    (∀ init, jsLt effMax init →
      initSelection (some init) minD effMax today = effMax.cal) ∧
    (∀ init, jsLt init minD →
      initSelection (some init) minD effMax today = minD.cal) ∧
    (∀ init, validCal init.cal → jsLe minD init → jsLe init effMax →
      initSelection (some init) minD effMax today = init.cal) := by
  have hnm : ¬ jsLt effMax minD := by
    intro hlt
    rcases hlt with h | ⟨_, hms⟩
    · exact not_calLt_of_calLe hle h
    · omega
  refine ⟨fun init hlt => ?_, fun init hlt => ?_, fun init hvc hlo hhi => ?_⟩
  · simp only [initSelection, Option.getD_some]
    rw [if_pos hlt, if_neg hnm]
    exact seedPipeline_id minD.cal effMax.cal effMax.cal hvmin hvmax hvmax hle hle
      (calLe_refl effMax.cal)
  · have hne : ¬ jsLt effMax init := by
      intro hgt
      rcases hgt with h | ⟨hc, hms⟩
      · rcases hlt with h' | ⟨hc', hms'⟩
        · exact not_calLt_of_calLe hle (by
            unfold calLt at h h' ⊢
            omega)
        · rw [hc'] at h
          exact not_calLt_of_calLe hle h
      · rcases hlt with h' | ⟨hc', hms'⟩
        · rw [← hc] at h'
          exact not_calLt_of_calLe hle h'
        · exact hnm (Or.inr ⟨hc.trans hc', by omega⟩)
    simp only [initSelection, Option.getD_some]
    rw [if_neg hne, if_pos hlt]
    exact seedPipeline_id minD.cal effMax.cal minD.cal hvmin hvmax hvmin hle
      (calLe_refl minD.cal) hle
  · simp only [initSelection, Option.getD_some]
    rw [if_neg hhi, if_neg hlo]
    have h1 : calLe minD.cal init.cal := by
      apply calLe_of_not_calLt
      intro h
      exact hlo (Or.inl h)
    have h2 : calLe init.cal effMax.cal := by
      apply calLe_of_not_calLt
      intro h
      exact hhi (Or.inl h)
    exact seedPipeline_id minD.cal effMax.cal init.cal hvmin hvmax hvc hle h1 h2

/-- Witness for C7 at the spec's scenario values: an `initialDate` past the
effective maximum (2024-06-20 vs 2024-06-15) seeds 2024-06-15, and one before
`minDate` (1944-05-01 vs 1945-01-01) seeds 1945-01-01. -/
theorem spec_C7_witness :
    initSelection (some ⟨⟨2024, 6, 20⟩, 0⟩) ⟨⟨1945, 1, 1⟩, 0⟩ ⟨⟨2024, 6, 15⟩, 0⟩
        ⟨⟨2024, 6, 15⟩, 0⟩ = ⟨2024, 6, 15⟩ ∧
    initSelection (some ⟨⟨1944, 5, 1⟩, 0⟩) ⟨⟨1945, 1, 1⟩, 0⟩ ⟨⟨2024, 6, 15⟩, 0⟩
        ⟨⟨2024, 6, 15⟩, 0⟩ = ⟨1945, 1, 1⟩ :=
  ⟨(spec_C7 ⟨⟨1945, 1, 1⟩, 0⟩ ⟨⟨2024, 6, 15⟩, 0⟩ ⟨⟨2024, 6, 15⟩, 0⟩ rfl rfl
      (by decide) (by decide) (by decide)).1 ⟨⟨2024, 6, 20⟩, 0⟩ (by decide),
   (spec_C7 ⟨⟨1945, 1, 1⟩, 0⟩ ⟨⟨2024, 6, 15⟩, 0⟩ ⟨⟨2024, 6, 15⟩, 0⟩ rfl rfl
      (by decide) (by decide) (by decide)).2.1 ⟨⟨1944, 5, 1⟩, 0⟩ (by decide)⟩

/-! Claim C2. -/

/-- Every step keeps the selected year an element of the year list. -/
theorem reach_year_mem (minD effMax : CalDate) {s t : SelState}
    (h : Reach minD effMax s t) (hy : s.year ∈ buildYearList minD effMax) :
    t.year ∈ buildYearList minD effMax := by
  induction h with
  | refl => exact hy
  | tail hst hstep ih =>
      cases hstep <;> first | assumption | exact ih

/-- C2 (amended): the `SelectedDate` invariant
`minDate ≤ selected ≤ effectiveMaxDate` with a day valid for the selected
year-month holds in every reachable *quiescent* state of the visible dialog —
a state on which the month-sync and day-sync reactions are no-ops — provided
the bounds are valid and ordered and the starting year is in the year list.
It does not hold in the intermediate states between a column's value change
and the deferred sync reactions (see the counterexample). -/
theorem spec_C2_amended (minD effMax : CalDate)
    (hvmin : validCal minD) (hvmax : validCal effMax) (hle : calLe minD effMax)
    (s0 s : SelState) (hy0 : s0.year ∈ buildYearList minD effMax)
    (hr : Reach minD effMax s0 s)
    (hqm : monthSyncStep minD effMax s.year s.month = some s.month)
    (hqd : daySyncStep minD effMax s.year s.month s.day = s.day) :
    SelInvariant minD effMax s := by
  have hy : s.year ∈ buildYearList minD effMax := reach_year_mem minD effMax hr hy0
  rw [mem_buildYearList_iff] at hy
  unfold validCal at hvmin hvmax
  unfold calLe calLt at hle
  rw [calDate_eq_iff] at hle
  have hdim := daysInMonth_pos s.year s.month
  have hdd : s.year = minD.year → s.month = minD.month →
      daysInMonth s.year s.month = daysInMonth minD.year minD.month := by
    intro a b
    rw [a, b]
  -- quiescence of the month sync forces the month into the month list
  have hm : s.month ∈ buildMonthList minD effMax s.year := by
    by_cases hmem : s.month ∈ buildMonthList minD effMax s.year
    · exact hmem
    · simp only [monthSyncStep] at hqm
      rw [if_neg hmem] at hqm
      exact absurd (List.mem_of_mem_head? (by rw [hqm]; rfl)) hmem
  rw [mem_buildMonthList_iff] at hm
  obtain ⟨hma, hmb⟩ := hm
  have hm1 : s.year = minD.year → minD.month ≤ s.month := by
    intro h
    rw [if_pos h] at hma
    exact hma
  have hm4 : 1 ≤ s.month := by
    by_cases h : s.year = minD.year
    · rw [if_pos h] at hma
      omega
    · rw [if_neg h] at hma
      exact hma
  -- the day list for a month in the month list is non-empty
  have hlo : (if s.year = minD.year ∧ s.month = minD.month then minD.day else 1) ∈
      buildDayList minD effMax s.year s.month := by
    rw [mem_buildDayList_iff]
    split_ifs <;> omega
  -- quiescence of the day sync forces the day into the day list
  obtain ⟨d, hd, hdm⟩ :
      ∃ d, s.day = some d ∧ d ∈ buildDayList minD effMax s.year s.month := by
    cases hday : s.day with
    | none =>
        rw [hday] at hqd
        simp only [daySyncStep] at hqd
        rw [List.head?_eq_none_iff] at hqd
        rw [hqd] at hlo
        exact absurd hlo (List.not_mem_nil _)
    | some d =>
        refine ⟨d, rfl, ?_⟩
        by_cases hmem : d ∈ buildDayList minD effMax s.year s.month
        · exact hmem
        · rw [hday] at hqd
          simp only [daySyncStep] at hqd
          rw [if_neg hmem] at hqd
          split_ifs at hqd
          · exact absurd (List.mem_of_mem_getLast? (by rw [hqd]; rfl)) hmem
          · exact absurd (List.mem_of_mem_head? (by rw [hqd]; rfl)) hmem
          · exact absurd (List.mem_of_mem_head? (by rw [hqd]; rfl)) hmem
  rw [mem_buildDayList_iff] at hdm
  obtain ⟨hda, hdb⟩ := hdm
  have hd1 : s.year = minD.year → s.month = minD.month → minD.day ≤ d := by
    intro h h'
    rw [if_pos ⟨h, h'⟩] at hda
    exact hda
  have hd4 : 1 ≤ d := by
    by_cases h : s.year = minD.year ∧ s.month = minD.month
    · rw [if_pos h] at hda
      omega
    · rw [if_neg h] at hda
      exact hda
  have goal_eq : SelInvariant minD effMax s ↔
      (calLe minD ⟨s.year, s.month, d⟩ ∧ calLe ⟨s.year, s.month, d⟩ effMax ∧
        1 ≤ d ∧ d ≤ daysInMonth s.year s.month) := by
    unfold SelInvariant
    rw [hd]
  rw [goal_eq]
  simp only [calLe, calLt, calDate_eq_iff]
  refine ⟨by omega, ?_, hd4, ?_⟩
  · rcases hdb with ⟨hy1, hm1', hd1'⟩ | ⟨hbefore, hd1'⟩ <;> omega
  · rcases hdb with ⟨hy1, hm1', hd1'⟩ | ⟨hbefore, hd1'⟩
    · rw [hy1, hm1']
      omega
    · exact hd1'

/-- Counterexample to C2 as stated: with bounds 1945-01-01 and 2024-06-15, the
stable state (2023, 12, 25) satisfies the invariant, a single user year
selection (a legal element of the year list) leads to the reachable
intermediate state (2024, 12, 25), and there — before the deferred sync
reactions run — the invariant fails, since 2024-12-25 exceeds the effective
maximum 2024-06-15. -/
theorem spec_C2_counterexample :
    SelInvariant ⟨1945, 1, 1⟩ ⟨2024, 6, 15⟩ ⟨2023, 12, some 25⟩ ∧
    Reach ⟨1945, 1, 1⟩ ⟨2024, 6, 15⟩ ⟨2023, 12, some 25⟩ ⟨2024, 12, some 25⟩ ∧
    ¬ SelInvariant ⟨1945, 1, 1⟩ ⟨2024, 6, 15⟩ ⟨2024, 12, some 25⟩ := by
  refine ⟨by decide, ?_, by decide⟩
  exact Relation.ReflTransGen.single
    (Step.selectYear ⟨2023, 12, some 25⟩ 2024 (by decide))

/-- Witness for the amended C2 at a concrete quiescent state. -/
theorem spec_C2_amended_witness :
    SelInvariant ⟨1945, 1, 1⟩ ⟨2024, 6, 15⟩ ⟨2023, 12, some 25⟩ :=
  spec_C2_amended ⟨1945, 1, 1⟩ ⟨2024, 6, 15⟩ (by decide) (by decide) (by decide)
    ⟨2023, 12, some 25⟩ ⟨2023, 12, some 25⟩ (by decide)
    Relation.ReflTransGen.refl (by decide) (by decide)

/-! Claim C10. -/

/-- C10 (amended): the initialization path checks every list for emptiness
before indexing, but the month-sync and day-sync reactions do not.  On a
non-empty recomputed list each reaction reads an existing element (a defined
member of the list), but on an empty recomputed day list — reachable with
well-formed bounds in the transient state where the stale month lies past
`effectiveMaxDate`'s month after a year change — the day-sync reads
`undefined` (`none`) and stores it; the dialog recovers on the following sync
pass rather than crashing. -/
theorem spec_C10_amended (minD effMax : CalDate) (y m d : Nat) :
    (buildMonthList minD effMax y ≠ [] →
      ∃ v, monthSyncStep minD effMax y m = some v ∧
        v ∈ buildMonthList minD effMax y) ∧
    (buildDayList minD effMax y m ≠ [] →
      ∃ v, daySyncStep minD effMax y m (some d) = some v ∧
        v ∈ buildDayList minD effMax y m) ∧
    (buildDayList minD effMax y m = [] →
      daySyncStep minD effMax y m (some d) = none) := by
  refine ⟨fun hne => ?_, fun hne => ?_, fun hnil => ?_⟩
  · by_cases hmem : m ∈ buildMonthList minD effMax y
    · refine ⟨m, ?_, hmem⟩
      simp only [monthSyncStep]
      rw [if_pos hmem]
    · obtain ⟨v, hv⟩ := Option.ne_none_iff_exists'.mp
        ((List.head?_eq_none_iff).ne.mpr hne ∘ id)
      refine ⟨v, ?_, List.mem_of_mem_head? (by rw [hv]; rfl)⟩
      simp only [monthSyncStep]
      rw [if_neg hmem, hv]
  · by_cases hmem : d ∈ buildDayList minD effMax y m
    · refine ⟨d, ?_, hmem⟩
      simp only [daySyncStep]
      rw [if_pos hmem]
    · obtain ⟨v, hv⟩ := Option.ne_none_iff_exists'.mp
        ((List.head?_eq_none_iff).ne.mpr hne ∘ id)
      obtain ⟨w, hw⟩ := Option.ne_none_iff_exists'.mp
        ((List.getLast?_eq_none_iff).ne.mpr hne ∘ id)
      simp only [daySyncStep]
      rw [if_neg hmem, hv, hw]
      by_cases hgt : jsGtOpt d (some w)
      · rw [if_pos hgt]
        exact ⟨w, rfl, List.mem_of_mem_getLast? (by rw [hw]; rfl)⟩
      · rw [if_neg hgt]
        by_cases hlt : jsLtOpt d (some v)
        · rw [if_pos hlt]
          exact ⟨v, rfl, List.mem_of_mem_head? (by rw [hv]; rfl)⟩
        · rw [if_neg hlt]
          exact ⟨v, rfl, List.mem_of_mem_head? (by rw [hv]; rfl)⟩
  · simp only [daySyncStep]
    rw [hnil]
    simp [jsGtOpt, jsLtOpt]

/-- Counterexample to C10 as stated: with the well-formed bounds 1945-01-01
and 2024-06-15, the intermediate state (2024, 12, 25) is reachable by a
single legal year selection from the stable state (2023, 12, 25); there the
recomputed day list is empty and the day-sync reaction — which has no
emptiness check before indexing — reads `availableDays[0]` of the empty
list, an `undefined` read (`none`). -/
theorem spec_C10_counterexample :
    Reach ⟨1945, 1, 1⟩ ⟨2024, 6, 15⟩ ⟨2023, 12, some 25⟩ ⟨2024, 12, some 25⟩ ∧
    buildDayList ⟨1945, 1, 1⟩ ⟨2024, 6, 15⟩ 2024 12 = [] ∧
    daySyncStep ⟨1945, 1, 1⟩ ⟨2024, 6, 15⟩ 2024 12 (some 25) = none := by
  refine ⟨?_, by decide, by decide⟩
  exact Relation.ReflTransGen.single
    (Step.selectYear ⟨2023, 12, some 25⟩ 2024 (by decide))

/-- Witness for the amended C10 at concrete inputs. -/
theorem spec_C10_witness :
    (∃ v, monthSyncStep ⟨1945, 1, 1⟩ ⟨2024, 6, 15⟩ 2024 12 = some v ∧
      v ∈ buildMonthList ⟨1945, 1, 1⟩ ⟨2024, 6, 15⟩ 2024) ∧
    (∃ v, daySyncStep ⟨1945, 1, 1⟩ ⟨2024, 6, 15⟩ 2023 2 (some 29) = some v ∧
      v ∈ buildDayList ⟨1945, 1, 1⟩ ⟨2024, 6, 15⟩ 2023 2) :=
  ⟨(spec_C10_amended ⟨1945, 1, 1⟩ ⟨2024, 6, 15⟩ 2024 12 1).1 (by decide),
   (spec_C10_amended ⟨1945, 1, 1⟩ ⟨2024, 6, 15⟩ 2023 2 29).2.1 (by decide)⟩

end DatePicker
